import Mathlib

/-!
Verification of the solana-vault repository's core protocol.

The embedding covers, faithfully to the source:
* the client-side address derivation (`getVaultPDA` / `getCounterPDA` from
  `src/utils/anchor.ts`), including the real SHA-256 hash, the base58 decoding
  of the deployed program id, and the ed25519 decompression ("is on curve")
  test used by `PublicKey.findProgramAddressSync`;
* the on-chain program (the Anchor contract reproduced in `README.md`):
  the `deposit` and `withdraw` instructions together with the account
  constraints Anchor generates for the `Deposit` / `Withdraw` account structs
  (seeds checks against the recomputed PDA, `init_if_needed` creation of the
  interaction counter, signer check), and the system-program lamport
  transfers they perform.

Chain state is a pair of maps (lamports per address, per-address interaction
counter records); a failing instruction aborts the whole transaction, which
the ledger substrate rolls back, so operations return `Except` and an error
leaves the pre-state as the observable state.
-/

set_option maxRecDepth 100000

namespace SolanaVault

/-! ## Bytes and words -/

/-- An account address / public key: a list of 32 bytes. -/
abbrev Addr := List Nat

/-- 2^32, the modulus for SHA-256 word arithmetic. -/
def m32 : Nat := 4294967296

/-- 2^64, the modulus of the ledger's `u64` quantities. -/
def u64Size : Nat := 18446744073709551616

/-- Big-endian byte encoding of `v`, padded/truncated to `len` bytes. -/
def natToBytesBE : Nat → Nat → List Nat
  | 0, _ => []
  | len + 1, v => natToBytesBE len (v / 256) ++ [v % 256]

/-- Little-endian interpretation of a byte list as a natural number. -/
def leToNat : List Nat → Nat
  | [] => 0
  | b :: rest => b + 256 * leToNat rest

/-- ASCII bytes of a string (all seed tags used here are 7-bit ASCII). -/
def asciiBytes (s : String) : List Nat := s.toList.map Char.toNat

/-- 32-bit right rotation. -/
def rotr (n x : Nat) : Nat := ((x >>> n) ||| (x <<< (32 - n))) % m32

/-- Split a byte list into 64-byte blocks; `fuel` is the number of blocks. -/
def chunks64 : Nat → List Nat → List (List Nat)
  | 0, _ => []
  | fuel + 1, l => l.take 64 :: chunks64 fuel (l.drop 64)

/-- Big-endian 32-bit words from bytes. -/
def bytesToWords : List Nat → List Nat
  | b0 :: b1 :: b2 :: b3 :: rest =>
      (((b0 * 256 + b1) * 256 + b2) * 256 + b3) :: bytesToWords rest
  | _ => []

/-! ## SHA-256

The hash used by `PublicKey.createProgramAddressSync`.  The round constants
are, per the standard, the first 32 bits of the fractional parts of the cube
(square) roots of the first 64 (8) primes; we compute them with integer
root extraction instead of transcribing the tables. -/

/-- Bisection step for integer root extraction: largest `r` with `r^k ≤ v`,
maintaining `lo^k ≤ v < hi^k`. -/
def irootAux (k v : Nat) : Nat → Nat → Nat → Nat
  | 0, lo, _ => lo
  | fuel + 1, lo, hi =>
    if hi ≤ lo + 1 then lo
    else
      let mid := (lo + hi) / 2
      if mid ^ k ≤ v then irootAux k v fuel mid hi else irootAux k v fuel lo mid

/-- Integer `k`-th root of `v` (for `v < 2^128`). -/
def iroot (k v : Nat) : Nat := irootAux k v 130 0 (2 ^ 64)

/-- The first 64 primes. -/
def primes64 : List Nat :=
  [2, 3, 5, 7, 11, 13, 17, 19, 23, 29, 31, 37, 41, 43, 47, 53,
   59, 61, 67, 71, 73, 79, 83, 89, 97, 101, 103, 107, 109, 113, 127, 131,
   137, 139, 149, 151, 157, 163, 167, 173, 179, 181, 191, 193, 197, 199, 211, 223,
   227, 229, 233, 239, 241, 251, 257, 263, 269, 271, 277, 281, 283, 293, 307, 311]

/-- SHA-256 round constants: fractional cube roots of the first 64 primes. -/
def K256 : List Nat := primes64.map (fun q => iroot 3 (q * 2 ^ 96) % m32)

/-- SHA-256 initial hash value: fractional square roots of the first 8 primes. -/
def H256 : List Nat := (primes64.take 8).map (fun q => iroot 2 (q * 2 ^ 64) % m32)

def smallSigma0 (x : Nat) : Nat := (rotr 7 x) ^^^ (rotr 18 x) ^^^ (x >>> 3)
def smallSigma1 (x : Nat) : Nat := (rotr 17 x) ^^^ (rotr 19 x) ^^^ (x >>> 10)
def bigSigma0 (x : Nat) : Nat := (rotr 2 x) ^^^ (rotr 13 x) ^^^ (rotr 22 x)
def bigSigma1 (x : Nat) : Nat := (rotr 6 x) ^^^ (rotr 11 x) ^^^ (rotr 25 x)
def chFun (x y z : Nat) : Nat := (x &&& y) ^^^ ((x ^^^ (m32 - 1)) &&& z)
def majFun (x y z : Nat) : Nat := (x &&& y) ^^^ (x &&& z) ^^^ (y &&& z)

/-- Message-schedule extension: append `fuel` more words to `ws`. -/
def extendWords : Nat → List Nat → List Nat
  | 0, ws => ws
  | fuel + 1, ws =>
    let t := (smallSigma1 (ws.getD (ws.length - 2) 0) + ws.getD (ws.length - 7) 0 +
              smallSigma0 (ws.getD (ws.length - 15) 0) + ws.getD (ws.length - 16) 0) % m32
    extendWords fuel (ws ++ [t])

/-- One SHA-256 round on the 8-word working state, given `(Kᵢ, Wᵢ)`. -/
def roundStep (st : List Nat) (kw : Nat × Nat) : List Nat :=
  match st with
  | [a, b, c, d, e, f, g, h] =>
    let t1 := (h + bigSigma1 e + chFun e f g + kw.1 + kw.2) % m32
    let t2 := (bigSigma0 a + majFun a b c) % m32
    [(t1 + t2) % m32, a, b, c, (d + t1) % m32, e, f, g]
  | other => other

/-- Compress one 64-byte block into the hash state. -/
def compressBlock (h : List Nat) (block : List Nat) : List Nat :=
  let ws := extendWords 48 (bytesToWords block)
  let st := (K256.zip ws).foldl roundStep h
  (h.zip st).map (fun q => (q.1 + q.2) % m32)

/-- SHA-256 padding: append `0x80`, zeros, and the 64-bit big-endian bit length. -/
def sha256pad (msg : List Nat) : List Nat :=
  let L := msg.length
  let k := (64 + 55 - L % 64) % 64
  msg ++ [128] ++ List.replicate k 0 ++ natToBytesBE 8 (8 * L)

/-- SHA-256 of a byte string, as 32 bytes. -/
def sha256 (msg : List Nat) : List Nat :=
  let padded := sha256pad msg
  let hh := (chunks64 (padded.length / 64) padded).foldl compressBlock H256
  hh.foldr (fun w acc => natToBytesBE 4 w ++ acc) []

/-! ## Base58 decoding

`new PublicKey("...")` decodes the base58 string into the 32-byte key. -/

/-- The bitcoin base58 alphabet used by `bs58`. -/
def b58Alphabet : List Char :=
  "123456789ABCDEFGHJKLMNPQRSTUVWXYZabcdefghijkmnopqrstuvwxyz".toList

/-- Index of a character in a list (0 for absent; every input here is valid). -/
def charIdx (c : Char) : List Char → Nat
  | [] => 0
  | x :: xs => if x = c then 0 else charIdx c xs + 1

/-- Base58 decoding of a 32-byte key string. -/
def base58ToPubkey (s : String) : Addr :=
  natToBytesBE 32 (s.toList.foldl (fun acc c => acc * 58 + charIdx c b58Alphabet) 0)

/-! ## Ed25519 decompression ("is on curve")

`PublicKey.findProgramAddressSync` keeps only digests that are NOT valid
ed25519 point encodings.  We reproduce the decompression check of the noble
curves library used by `@solana/web3.js` (strict mode: the y coordinate must
be below the field prime; a digest is on the curve iff x² = (y²-1)/(d·y²+1)
has a square root, excluding x = 0 with the sign bit set). -/

/-- The ed25519 field prime 2^255 - 19. -/
def p25519 : Nat := 57896044618658097711785492504343953926634992332820282019728792003956564819949

/-- The twisted Edwards constant d = -121665/121666 mod p. -/
def d25519 : Nat := 37095705934669439343138083508754565189542113879843219016388785533085940283555

/-- √-1 mod p, i.e. 2^((p-1)/4), used to adjust the candidate root. -/
def sqrtM1 : Nat := 19681161376707505956807079304988542015446066515923890162744021073123829784752

/-- Modular exponentiation by squaring (fuel-structural so the kernel can
evaluate it). -/
def powModAux : Nat → Nat → Nat → Nat → Nat
  | 0, _, _, _ => 1
  | fuel + 1, b, e, m =>
    if e = 0 then 1 % m
    else
      let r := powModAux fuel ((b * b) % m) (e / 2) m
      if e % 2 = 1 then (r * b) % m else r

def powMod (b e m : Nat) : Nat := powModAux 300 (b % m) e m

/-- The noble `uvRatio`: candidate x with v·x² = u, returning whether a root
exists and the candidate value (before sign adjustment). -/
def uvRatio (u v : Nat) : Bool × Nat :=
  let p := p25519
  let v3 := v * v % p * v % p
  let v7 := v3 * v3 % p * v % p
  let pw := powMod (u * v7 % p) ((p - 5) / 8) p
  let x := u * v3 % p * pw % p
  let vx2 := v * x % p * x % p
  let root1 := x
  let root2 := x * sqrtM1 % p
  let useRoot1 := vx2 = u % p
  let useRoot2 := vx2 = (p - u % p) % p
  let noRoot := vx2 = (p - u % p) % p * sqrtM1 % p
  let value := if useRoot1 then root1 else if useRoot2 || noRoot then root2 else x
  (useRoot1 || useRoot2, value)

/-- Whether 32 bytes are a valid ed25519 point encoding (strict decompression,
as in the noble library backing `@solana/web3.js`'s `isOnCurve`). -/
def isOnCurve (bytes : List Nat) : Bool :=
  let p := p25519
  let n := leToNat bytes
  let y := n % 2 ^ 255
  let signBit := n / 2 ^ 255
  if p ≤ y then false
  else
    let y2 := y * y % p
    let u := (y2 + p - 1) % p
    let v := (d25519 * y2 + 1) % p
    let (valid, x) := uvRatio u v
    valid && !(x = 0 && signBit = 1)

/-! ## Program-derived addresses

`PublicKey.createProgramAddressSync` hashes the seeds, the program id and a
fixed marker; `findProgramAddressSync` searches bumps 255 down to 1 for the
first digest that falls off the curve.  The same derivation is performed
on-chain by Anchor's seeds constraints (`Pubkey::find_program_address`). -/

/-- The program id declared in `src/utils/anchor.ts` / `declare_id!`. -/
def programID : Addr := base58ToPubkey "7MtYccqQ745U3ohVr6YVibhpvZCMHUer11BR69zYjrZw"

/-- The fixed marker appended by `createProgramAddress`. -/
def pdaMarker : List Nat := asciiBytes "ProgramDerivedAddress"

/-- `createProgramAddressSync`: sha256 of seeds ++ programId ++ marker; fails
(`none`) when the digest is a valid curve point.  (All seeds used in this
repository respect the 32-byte seed-length limit, which is therefore not
modelled.) -/
def createProgramAddress (seeds : List (List Nat)) (pid : Addr) : Option Addr :=
  let digest := sha256 (seeds.foldr (· ++ ·) [] ++ pid ++ pdaMarker)
  if isOnCurve digest then none else some digest

/-- The bump search loop of `findProgramAddressSync`: the argument is the
nonce to try next; the loop stops before trying nonce 0. -/
def findPAAux (seeds : List (List Nat)) (pid : Addr) : Nat → Option (Addr × Nat)
  | 0 => none
  | n + 1 =>
    match createProgramAddress (seeds ++ [[n + 1]]) pid with
    | some a => some (a, n + 1)
    | none => findPAAux seeds pid n

/-- `findProgramAddressSync` / `Pubkey::find_program_address`: first bump from
255 downward whose derived address is off the curve, with that address. -/
def findProgramAddress (seeds : List (List Nat)) (pid : Addr) : Option (Addr × Nat) :=
  findPAAux seeds pid 255

def vaultSeed : List Nat := asciiBytes "vault"
def counterSeed : List Nat := asciiBytes "counter"

/-- Vault PDA with bump for an owner (seeds `[b"vault", owner]`). -/
def findVaultPDA (owner : Addr) : Option (Addr × Nat) :=
  findProgramAddress [vaultSeed, owner] programID

/-- Counter PDA with bump for an owner (seeds `[b"counter", owner]`). -/
def findCounterPDA (owner : Addr) : Option (Addr × Nat) :=
  findProgramAddress [counterSeed, owner] programID

/-- `getVaultPDA` from `src/utils/anchor.ts`: the address component. -/
def getVaultPDA (owner : Addr) : Option Addr := (findVaultPDA owner).map Prod.fst

/-- `getCounterPDA` from `src/utils/anchor.ts`: the address component. -/
def getCounterPDA (owner : Addr) : Option Addr := (findCounterPDA owner).map Prod.fst

/-! ## The Vault Ledger Engine

State and the two instructions of the Anchor program in `README.md`. -/

/-- The `UserInteractions` account data (`total_deposits`, `total_withdrawals`,
both `u64`). -/
structure UserInteractions where
  total_deposits : Nat
  total_withdrawals : Nat
deriving DecidableEq, Repr

/-- Observable chain state: lamport balance of every address, and the
deserialized `UserInteractions` record of every address holding one
(`none` = no such account). -/
structure Chain where
  lamports : Addr → Nat
  counters : Addr → Option UserInteractions

/-- Errors surfaced by the two instructions.  `UnauthorizedSigner` is Anchor's
signer check; `AddressMismatch` is Anchor's `ConstraintSeeds` violation;
`CounterNotFound` is `AccountNotInitialized` when deserializing the counter;
`InsufficientFunds` and `ArithmeticOverflow` come from the system program's
checked lamport arithmetic (and from the program's own counter increment,
which aborts on `u64` overflow); `DerivationFailure` is the (cryptographically
negligible) exhaustion of the bump search; `MissingVaultSignature` is the
runtime's rejection of `invoke_signed` when the re-derived address does not
match the debited account. -/
inductive VaultError where
  | UnauthorizedSigner
  | AddressMismatch
  | CounterNotFound
  | InsufficientFunds
  | ArithmeticOverflow
  | DerivationFailure
  | MissingVaultSignature
deriving DecidableEq, Repr

/-- Pointwise map update (addresses compared by value). -/
def setBal (f : Addr → Nat) (a : Addr) (v : Nat) : Addr → Nat :=
  fun x => if x = a then v else f x

/-- Pointwise counter-record update. -/
def setCtr (f : Addr → Option UserInteractions) (a : Addr) (v : Option UserInteractions) :
    Addr → Option UserInteractions :=
  fun x => if x = a then v else f x

/-- The system program's lamport transfer: fails with insufficient funds when
the source balance is below `amount`, debits the source, then credits the
destination with a checked `u64` add. -/
def transfer (st : Chain) (src dst : Addr) (amount : Nat) : Except VaultError Chain :=
  if st.lamports src < amount then .error .InsufficientFunds
  else
    if setBal st.lamports src (st.lamports src - amount) dst + amount < u64Size then
      .ok { st with
            lamports := setBal (setBal st.lamports src (st.lamports src - amount)) dst
              (setBal st.lamports src (st.lamports src - amount) dst + amount) }
    else .error .ArithmeticOverflow

/-- Modelled from the spec: the substrate's create-if-missing primitive funds
the new 24-byte counter record from the signer ("created ... funded by the
signer"); the repository does not pin the substrate's rent parameters, so the
rent-exempt minimum for the record is a fixed constant here. -/
def counterRent : Nat := 1057920

/-- The body of the `deposit` instruction, applied to the state and counter
record left by the account validation: a system-program transfer of `amount`
from the signer to the vault PDA, then `total_deposits += 1` (aborting on
`u64` overflow, per the workspace's checked arithmetic). -/
def depositBody (st1 : Chain) (signer vaultA counterA : Addr) (amount : Nat)
    (ctr : UserInteractions) : Except VaultError Chain :=
  match transfer st1 signer vaultA amount with
  | .error e => .error e
  | .ok st2 =>
    if ctr.total_deposits + 1 < u64Size then
      .ok { st2 with
            counters := setCtr st2.counters counterA
              (some ⟨ctr.total_deposits + 1, ctr.total_withdrawals⟩) }
    else .error .ArithmeticOverflow

/-- The `deposit` instruction, including the account validation Anchor
generates for the `Deposit` struct, in its order: signer check; seeds check
of `user_vault_account` against the recomputed `find_program_address`
(mismatch is `ConstraintSeeds`); seeds check plus `init_if_needed` of
`user_interactions_counter` (creation paid by the signer, fields zeroed);
then the instruction body (`depositBody`).  A failure anywhere aborts the
transaction, so no partial state escapes. -/
def deposit (st : Chain) (signer vaultA counterA : Addr) (signed : Bool) (amount : Nat) :
    Except VaultError Chain :=
  if !signed then .error .UnauthorizedSigner
  else
    match findVaultPDA signer with
    | none => .error .DerivationFailure
    | some (vpda, _vbump) =>
      if vaultA ≠ vpda then .error .AddressMismatch
      else
        match findCounterPDA signer with
        | none => .error .DerivationFailure
        | some (cpda, _cbump) =>
          if counterA ≠ cpda then .error .AddressMismatch
          else
            match st.counters counterA with
            | some c => depositBody st signer vaultA counterA amount c
            | none =>
              match transfer st signer counterA counterRent with
              | .error e => .error e
              | .ok st' =>
                depositBody
                  { st' with counters := setCtr st'.counters counterA (some ⟨0, 0⟩) }
                  signer vaultA counterA amount ⟨0, 0⟩

/-- The `withdraw` instruction, including the account validation Anchor
generates for the `Withdraw` struct, in its order: deserialization of
`user_interactions_counter` (an empty account is `AccountNotInitialized`,
i.e. the counter was never created); signer check; seeds checks of the vault
and the counter against the recomputed derivation; then the body: an
`invoke_signed` transfer from the vault PDA to the signer, authorized by
re-deriving the vault address from `[b"vault", signer, bump]` (the runtime
rejects the CPI if the re-derivation does not match), and
`total_withdrawals += 1`. -/
def withdraw (st : Chain) (signer vaultA counterA : Addr) (signed : Bool) (amount : Nat) :
    Except VaultError Chain :=
  match st.counters counterA with
  | none => .error .CounterNotFound
  | some ctr =>
    if !signed then .error .UnauthorizedSigner
    else
      match findVaultPDA signer with
      | none => .error .DerivationFailure
      | some (vpda, vbump) =>
        if vaultA ≠ vpda then .error .AddressMismatch
        else
          match findCounterPDA signer with
          | none => .error .DerivationFailure
          | some (cpda, _cbump) =>
            if counterA ≠ cpda then .error .AddressMismatch
            else
              match createProgramAddress [vaultSeed, signer, [vbump]] programID with
              | none => .error .MissingVaultSignature
              | some sigAddr =>
                if sigAddr ≠ vaultA then .error .MissingVaultSignature
                else
                  match transfer st vaultA signer amount with
                  | .error e => .error e
                  | .ok st2 =>
                    if ctr.total_withdrawals + 1 < u64Size then
                      .ok { st2 with
                            counters := setCtr st2.counters counterA
                              (some ⟨ctr.total_deposits, ctr.total_withdrawals + 1⟩) }
                    else .error .ArithmeticOverflow

/-- One client call: a deposit or withdrawal transaction. -/
inductive Op where
  | dep (signer vaultA counterA : Addr) (signed : Bool) (amount : Nat)
  | wd (signer vaultA counterA : Addr) (signed : Bool) (amount : Nat)

/-- Result of submitting one transaction. -/
def runOp (st : Chain) : Op → Except VaultError Chain
  | .dep signer vaultA counterA signed amount => deposit st signer vaultA counterA signed amount
  | .wd signer vaultA counterA signed amount => withdraw st signer vaultA counterA signed amount

/-- Observable state after a transaction: the ledger substrate rolls a failed
transaction back, so the pre-state persists on error. -/
def stepOp (st : Chain) (op : Op) : Chain :=
  match runOp st op with
  | .ok st' => st'
  | .error _ => st

/-- Observable state after a sequence of transactions. -/
def runOps (st : Chain) (ops : List Op) : Chain := ops.foldl stepOp st

/-- `total_deposits` of an optional counter record (0 when absent). -/
def tdOf (o : Option UserInteractions) : Nat :=
  match o with
  | some c => c.total_deposits
  | none => 0

/-- `total_withdrawals` of an optional counter record (0 when absent). -/
def twOf (o : Option UserInteractions) : Nat :=
  match o with
  | some c => c.total_withdrawals
  | none => 0

/-- Derived vault address of an owner (for stating claims; total with a dummy
default, the derivation succeeds for every owner exercised here). -/
def vaultAddrOf (owner : Addr) : Addr := ((findVaultPDA owner).getD ([], 0)).1

/-- Derived counter address of an owner. -/
def counterAddrOf (owner : Addr) : Addr := ((findCounterPDA owner).getD ([], 0)).1

/-! ### Concrete data used by the witness theorems -/

/-- A sample owner identity (any 32-byte public key). -/
def o1 : Addr := List.replicate 32 1

/-- A second, distinct sample owner identity. -/
def o2 : Addr := List.replicate 32 2

/-- A start state: both sample owners hold 5 / 3 SOL, no accounts exist. -/
def st0 : Chain :=
  { lamports := fun a => if a = o1 then 5000000000 else if a = o2 then 3000000000 else 0,
    counters := fun _ => none }

/-- Sample owner's derived vault address. -/
def v1 : Addr := vaultAddrOf o1

/-- Sample owner's derived counter address. -/
def c1 : Addr := counterAddrOf o1

/-- A funded sample state: the observable state after the sample owner's
1 SOL first deposit into `st0` (vault holds 1 SOL, the counter record reads
(1, 0) and holds its creation rent, the signer keeps the remainder). -/
def st1 : Chain :=
  { lamports := fun a =>
      if a = v1 then 1000000000
      else if a = c1 then 1057920
      else if a = o1 then 3998942080
      else if a = o2 then 3000000000
      else 0,
    counters := fun a => if a = c1 then some ⟨1, 0⟩ else none }

/-- Second sample owner's derived vault address. -/
def v2 : Addr := vaultAddrOf o2

/-- Second sample owner's derived counter address. -/
def c2 : Addr := counterAddrOf o2

/-- An arbitrary wrong address a caller might supply. -/
def badA : Addr := List.replicate 32 9

/-- Another wrong address, holding a counter record in the planted state. -/
def badC : Addr := List.replicate 32 10

/-- A state with a counter record planted at `badC` (to exercise the
counter-address seeds check when the supplied account deserializes). -/
def stW : Chain := { st1 with counters := setCtr st1.counters badC (some ⟨3, 4⟩) }

/-- Counter well-formedness: every existing record's fields fit in `u64`. -/
def CtrWF (st : Chain) : Prop :=
  ∀ a c, st.counters a = some c →
    c.total_deposits < u64Size ∧ c.total_withdrawals < u64Size

/-! ## Helper lemmas -/

/-- Inversion of a successful system transfer: the source had the funds, the
counter records are untouched, and the balances are the two pointwise
updates. -/
theorem transfer_ok_elim {st st' : Chain} {src dst : Addr} {amt : Nat}
    (h : transfer st src dst amt = .ok st') :
    amt ≤ st.lamports src ∧ st'.counters = st.counters ∧
    st'.lamports = setBal (setBal st.lamports src (st.lamports src - amt)) dst
      (setBal st.lamports src (st.lamports src - amt) dst + amt) := by
  unfold transfer at h
  split at h
  · exact absurd h (by simp)
  · split at h
    · rename_i h1 h2
      cases h
      exact ⟨Nat.le_of_not_lt h1, rfl, rfl⟩
    · exact absurd h (by simp)

/-- Construction of a successful system transfer. -/
theorem transfer_ok_intro (st : Chain) (src dst : Addr) (amt : Nat)
    (h1 : ¬ st.lamports src < amt)
    (h2 : setBal st.lamports src (st.lamports src - amt) dst + amt < u64Size) :
    transfer st src dst amt =
      .ok { st with
            lamports := setBal (setBal st.lamports src (st.lamports src - amt)) dst
              (setBal st.lamports src (st.lamports src - amt) dst + amt) } := by
  unfold transfer
  rw [if_neg h1, if_pos h2]

/-- A failed system transfer means the source lacked funds or the credit
would overflow. -/
theorem transfer_error_elim {st : Chain} {src dst : Addr} {amt : Nat} {e : VaultError}
    (h : transfer st src dst amt = .error e) :
    st.lamports src < amt ∨
    ¬ setBal st.lamports src (st.lamports src - amt) dst + amt < u64Size := by
  unfold transfer at h
  split at h
  · left; assumption
  · split at h
    · exact absurd h (by simp)
    · right; assumption

/-- A successful transaction's post-state is the observable state. -/
theorem stepOp_ok {st st' : Chain} {op : Op} (h : runOp st op = .ok st') :
    stepOp st op = st' := by
  unfold stepOp
  rw [h]

/-- A failed transaction leaves the observable state unchanged. -/
theorem stepOp_error {st : Chain} {op : Op} {e : VaultError} (h : runOp st op = .error e) :
    stepOp st op = st := by
  unfold stepOp
  rw [h]

/-- The bump-search loop only returns an address produced by
`createProgramAddress` at the returned bump. -/
theorem findPAAux_elim {seeds : List (List Nat)} {pid : Addr} :
    ∀ {fuel : Nat} {a : Addr} {n : Nat}, findPAAux seeds pid fuel = some (a, n) →
      createProgramAddress (seeds ++ [[n]]) pid = some a := by
  intro fuel
  induction fuel with
  | zero => intro a n h; simp [findPAAux] at h
  | succ m ih =>
    intro a n h
    unfold findPAAux at h
    split at h
    · rename_i heq
      cases h
      exact heq
    · exact ih h

/-- `findProgramAddress` returns an address that re-derives from the seeds
extended with the returned bump. -/
theorem findProgramAddress_elim {seeds : List (List Nat)} {pid a : Addr} {n : Nat}
    (h : findProgramAddress seeds pid = some (a, n)) :
    createProgramAddress (seeds ++ [[n]]) pid = some a :=
  findPAAux_elim h

/-- Full inversion of a successful `deposit`: the call was signed, both
supplied addresses are the recomputed PDAs, the counter guard held, the
counter record at the counter address gained exactly one deposit (from zero
when this deposit created it), every other counter record is untouched, the
vault gained exactly `amount` (when the vault address is distinct from the
signer and counter addresses, as derivation guarantees), and no other
address's balance moved. -/
theorem deposit_ok_elim {st st' : Chain} {signer vaultA counterA : Addr} {signed : Bool}
    {amount : Nat}
    (h : deposit st signer vaultA counterA signed amount = .ok st') :
    signed = true ∧
    (∃ vb, findVaultPDA signer = some (vaultA, vb)) ∧
    (∃ cb, findCounterPDA signer = some (counterA, cb)) ∧
    tdOf (st.counters counterA) + 1 < u64Size ∧
    st'.counters counterA =
      some ⟨tdOf (st.counters counterA) + 1, twOf (st.counters counterA)⟩ ∧
    (∀ a, a ≠ counterA → st'.counters a = st.counters a) ∧
    (vaultA ≠ signer → vaultA ≠ counterA →
      st'.lamports vaultA = st.lamports vaultA + amount) ∧
    (∀ a, a ≠ signer → a ≠ vaultA → a ≠ counterA → st'.lamports a = st.lamports a) := by
  cases signed with
  | false => exact absurd h (by simp [deposit])
  | true =>
    unfold deposit at h
    rw [if_neg (by simp)] at h
    split at h
    · exact absurd h (by simp)
    · rename_i vpda vbump heqv
      split at h
      · exact absurd h (by simp)
      · rename_i hvne
        have hveq : vaultA = vpda := not_ne_iff.mp hvne
        subst hveq
        split at h
        · exact absurd h (by simp)
        · rename_i cpda cbump heqc
          split at h
          · exact absurd h (by simp)
          · rename_i hcne
            have hceq : counterA = cpda := not_ne_iff.mp hcne
            subst hceq
            split at h
            · -- counter record already exists
              rename_i c hc
              unfold depositBody at h
              split at h
              · exact absurd h (by simp)
              · rename_i st2 htr
                obtain ⟨hle, hctr2, hlam2⟩ := transfer_ok_elim htr
                split at h
                · rename_i hguard
                  cases h
                  refine ⟨rfl, ⟨vbump, heqv⟩, ⟨cbump, heqc⟩, ?_, ?_, ?_, ?_, ?_⟩
                  · rw [hc]; simpa [tdOf] using hguard
                  · simp [setCtr, hc, tdOf, twOf]
                  · intro a ha; simp [setCtr, ha, hctr2]
                  · intro h1 h2; simp [hlam2, setBal, h1]
                  · intro a h1 h2 h3; simp [hlam2, setBal, h1, h2]
                · exact absurd h (by simp)
            · -- counter record created by this deposit
              rename_i hc
              split at h
              · exact absurd h (by simp)
              · rename_i str hrent
                obtain ⟨hler, hctrr, hlamr⟩ := transfer_ok_elim hrent
                unfold depositBody at h
                split at h
                · exact absurd h (by simp)
                · rename_i st2 htr
                  obtain ⟨hle, hctr2, hlam2⟩ := transfer_ok_elim htr
                  split at h
                  · cases h
                    refine ⟨rfl, ⟨vbump, heqv⟩, ⟨cbump, heqc⟩, ?_, ?_, ?_, ?_, ?_⟩
                    · rw [hc]; norm_num [tdOf, u64Size]
                    · simp [setCtr, hc, tdOf, twOf]
                    · intro a ha; simp [setCtr, ha, hctr2, hctrr]
                    · intro h1 h2; simp [hlam2, hlamr, setBal, h1, h2]
                    · intro a h1 h2 h3; simp [hlam2, hlamr, setBal, h1, h2, h3]
                  · exact absurd h (by simp)

/-- Full inversion of a successful `withdraw`: the call was signed, the
counter record existed and gained exactly one withdrawal, both supplied
addresses are the recomputed PDAs and the vault address re-derives from
`[b"vault", signer, bump]` (the `invoke_signed` authority), the vault held
the funds and lost exactly `amount` while the signer gained it (when the two
addresses are distinct), and nothing else moved. -/
theorem withdraw_ok_elim {st st' : Chain} {signer vaultA counterA : Addr} {signed : Bool}
    {amount : Nat}
    (h : withdraw st signer vaultA counterA signed amount = .ok st') :
    signed = true ∧
    (∃ vb, findVaultPDA signer = some (vaultA, vb) ∧
      createProgramAddress [vaultSeed, signer, [vb]] programID = some vaultA) ∧
    (∃ cb, findCounterPDA signer = some (counterA, cb)) ∧
    (∃ ctr, st.counters counterA = some ctr ∧
      ctr.total_withdrawals + 1 < u64Size ∧
      st'.counters counterA = some ⟨ctr.total_deposits, ctr.total_withdrawals + 1⟩) ∧
    (∀ a, a ≠ counterA → st'.counters a = st.counters a) ∧
    amount ≤ st.lamports vaultA ∧
    (vaultA ≠ signer →
      st.lamports vaultA = st'.lamports vaultA + amount ∧
      st'.lamports signer = st.lamports signer + amount) ∧
    (∀ a, a ≠ signer → a ≠ vaultA → st'.lamports a = st.lamports a) := by
  unfold withdraw at h
  split at h
  · exact absurd h (by simp)
  · rename_i ctr hc
    cases signed with
    | false => exact absurd h (by simp)
    | true =>
      rw [if_neg (by simp)] at h
      split at h
      · exact absurd h (by simp)
      · rename_i vpda vbump heqv
        split at h
        · exact absurd h (by simp)
        · rename_i hvne
          have hveq : vaultA = vpda := not_ne_iff.mp hvne
          subst hveq
          split at h
          · exact absurd h (by simp)
          · rename_i cpda cbump heqc
            split at h
            · exact absurd h (by simp)
            · rename_i hcne
              have hceq : counterA = cpda := not_ne_iff.mp hcne
              subst hceq
              split at h
              · exact absurd h (by simp)
              · rename_i sigAddr heqs
                split at h
                · exact absurd h (by simp)
                · rename_i hsne
                  have hseq : sigAddr = vaultA := not_ne_iff.mp hsne
                  subst hseq
                  split at h
                  · exact absurd h (by simp)
                  · rename_i st2 htr
                    obtain ⟨hle, hctr2, hlam2⟩ := transfer_ok_elim htr
                    split at h
                    · rename_i hguard
                      cases h
                      refine ⟨rfl, ⟨vbump, heqv, heqs⟩, ⟨cbump, heqc⟩,
                        ⟨ctr, hc, hguard, by simp [setCtr]⟩, ?_, hle, ?_, ?_⟩
                      · intro a ha; simp [setCtr, ha, hctr2]
                      · intro hvs
                        constructor
                        · simp [hlam2, setBal, hvs]; omega
                        · simp [hlam2, setBal, Ne.symm hvs]
                      · intro a h1 h2; simp [hlam2, setBal, h1, h2]
                    · exact absurd h (by simp)

/-- A single transaction never decreases any counter field (a failed
transaction is rolled back; a successful one increments one field). -/
theorem ctr_step_mono (st : Chain) (op : Op) (a : Addr) :
    tdOf (st.counters a) ≤ tdOf ((stepOp st op).counters a) ∧
    twOf (st.counters a) ≤ twOf ((stepOp st op).counters a) := by
  cases hres : runOp st op with
  | error e => simp [stepOp, hres]
  | ok st' =>
    have hstep : stepOp st op = st' := by simp [stepOp, hres]
    rw [hstep]
    cases op with
    | dep signer vaultA counterA signed amount =>
      obtain ⟨-, -, -, -, hctr, hframe, -, -⟩ := deposit_ok_elim hres
      by_cases ha : a = counterA
      · subst ha
        rw [hctr]
        constructor
        · simp [tdOf]
        · simp [twOf]
      · rw [hframe a ha]
        exact ⟨le_refl _, le_refl _⟩
    | wd signer vaultA counterA signed amount =>
      obtain ⟨-, -, -, ⟨ctr, hc, -, hc'⟩, hframe, -, -, -⟩ := withdraw_ok_elim hres
      by_cases ha : a = counterA
      · subst ha
        rw [hc, hc']
        constructor
        · simp [tdOf]
        · simp [twOf]
      · rw [hframe a ha]
        exact ⟨le_refl _, le_refl _⟩

/-- Counters are monotonically non-decreasing across any transaction
sequence. -/
theorem ctr_runOps_mono (ops : List Op) : ∀ (st : Chain) (a : Addr),
    tdOf (st.counters a) ≤ tdOf ((runOps st ops).counters a) ∧
    twOf (st.counters a) ≤ twOf ((runOps st ops).counters a) := by
  induction ops with
  | nil => intro st a; simp [runOps]
  | cons op ops ih =>
    intro st a
    have h1 := ctr_step_mono st op a
    have h2 := ih (stepOp st op) a
    have hfold : runOps st (op :: ops) = runOps (stepOp st op) ops := rfl
    rw [hfold]
    exact ⟨le_trans h1.1 h2.1, le_trans h1.2 h2.2⟩

/-- One transaction preserves counter well-formedness (`u64` bounds): the
increments are guarded, everything else is untouched. -/
theorem ctrWF_step (st : Chain) (hwf : CtrWF st) (op : Op) : CtrWF (stepOp st op) := by
  cases hres : runOp st op with
  | error e =>
    have hstep : stepOp st op = st := by simp [stepOp, hres]
    rw [hstep]; exact hwf
  | ok st' =>
    have hstep : stepOp st op = st' := by simp [stepOp, hres]
    rw [hstep]
    cases op with
    | dep signer vaultA counterA signed amount =>
      obtain ⟨-, -, -, hguard, hctr, hframe, -, -⟩ := deposit_ok_elim hres
      intro a c hac
      by_cases ha : a = counterA
      · subst ha
        rw [hctr] at hac
        cases hac
        refine ⟨hguard, ?_⟩
        cases hsc : st.counters a with
        | none => simp [twOf, hsc, u64Size]
        | some c' => simpa [twOf, hsc] using (hwf _ _ hsc).2
      · rw [hframe a ha] at hac
        exact hwf a c hac
    | wd signer vaultA counterA signed amount =>
      obtain ⟨-, -, -, ⟨ctr, hc, hguard, hc'⟩, hframe, -, -, -⟩ := withdraw_ok_elim hres
      intro a c hac
      by_cases ha : a = counterA
      · subst ha
        rw [hc'] at hac
        cases hac
        exact ⟨(hwf _ _ hc).1, hguard⟩
      · rw [hframe a ha] at hac
        exact hwf a c hac

/-- The deposit body succeeds whenever the signer covers the amount, the
vault credit fits in `u64`, and the counter increment does not overflow;
the resulting state is the two balance updates plus the counter bump. -/
theorem depositBody_ok (st1 : Chain) (signer vaultA counterA : Addr) (amount : Nat)
    (ctr : UserInteractions)
    (h1 : ¬ st1.lamports signer < amount)
    (h2 : setBal st1.lamports signer (st1.lamports signer - amount) vaultA + amount < u64Size)
    (hguard : ctr.total_deposits + 1 < u64Size) :
    depositBody st1 signer vaultA counterA amount ctr =
      .ok { lamports := setBal (setBal st1.lamports signer (st1.lamports signer - amount))
              vaultA (setBal st1.lamports signer (st1.lamports signer - amount) vaultA + amount),
            counters := setCtr st1.counters counterA
              (some ⟨ctr.total_deposits + 1, ctr.total_withdrawals⟩) } := by
  have htr := transfer_ok_intro st1 signer vaultA amount h1 h2
  unfold depositBody
  rw [htr]
  simp [hguard]

/-- With the account checks satisfied and no counter record present,
`deposit` reduces to the counter-creating rent transfer followed by the
instruction body. -/
theorem deposit_eval_create (st : Chain) (signer vaultA counterA : Addr) (amount vb cb : Nat)
    (hfv : findVaultPDA signer = some (vaultA, vb))
    (hfc : findCounterPDA signer = some (counterA, cb))
    (hnone : st.counters counterA = none) :
    deposit st signer vaultA counterA true amount =
      match transfer st signer counterA counterRent with
      | .error e => .error e
      | .ok st2 =>
        depositBody { st2 with counters := setCtr st2.counters counterA (some ⟨0, 0⟩) }
          signer vaultA counterA amount ⟨0, 0⟩ := by
  unfold deposit
  simp [hfv, hfc, hnone]

/-- A first deposit (no counter record yet) succeeds whenever the supplied
addresses are the derived PDAs, the three addresses are pairwise distinct,
the signer can fund both the counter rent and the amount, and neither
credit overflows. -/
theorem deposit_create_ok (st : Chain) (signer vaultA counterA : Addr)
    (amount vb cb : Nat)
    (hfv : findVaultPDA signer = some (vaultA, vb))
    (hfc : findCounterPDA signer = some (counterA, cb))
    (hnone : st.counters counterA = none)
    (hbal : counterRent + amount ≤ st.lamports signer)
    (hov1 : st.lamports counterA + counterRent < u64Size)
    (hov2 : st.lamports vaultA + amount < u64Size)
    (hvs : vaultA ≠ signer) (hvc : vaultA ≠ counterA) (hcs : counterA ≠ signer) :
    ∃ s, deposit st signer vaultA counterA true amount = .ok s := by
  have h1 : ¬ st.lamports signer < counterRent := by omega
  have h2 : setBal st.lamports signer (st.lamports signer - counterRent) counterA +
      counterRent < u64Size := by
    simp only [setBal, if_neg hcs]
    omega
  have htr1 := transfer_ok_intro st signer counterA counterRent h1 h2
  have h3 : ¬ (setBal (setBal st.lamports signer (st.lamports signer - counterRent)) counterA
      (setBal st.lamports signer (st.lamports signer - counterRent) counterA + counterRent))
      signer < amount := by
    simp only [setBal, if_neg (Ne.symm hcs), if_neg hcs, eq_self_iff_true, if_true]
    omega
  have h4 : setBal (setBal (setBal st.lamports signer (st.lamports signer - counterRent))
      counterA (setBal st.lamports signer (st.lamports signer - counterRent) counterA +
        counterRent)) signer
      ((setBal (setBal st.lamports signer (st.lamports signer - counterRent)) counterA
        (setBal st.lamports signer (st.lamports signer - counterRent) counterA + counterRent))
        signer - amount) vaultA + amount < u64Size := by
    simp only [setBal, if_neg hvs, if_neg hvc, if_neg hcs, if_neg (Ne.symm hcs),
      eq_self_iff_true, if_true]
    omega
  rw [deposit_eval_create st signer vaultA counterA amount vb cb hfv hfc hnone, htr1]
  exact ⟨_, depositBody_ok _ signer vaultA counterA amount ⟨0, 0⟩ h3 h4 (by norm_num [u64Size])⟩

/-- With the account checks and the derived-authority check satisfied,
`withdraw` reduces to the vault-to-signer transfer followed by the counter
bump. -/
theorem withdraw_eval (st : Chain) (signer vaultA counterA : Addr) (amount vb cb : Nat)
    (ctr : UserInteractions)
    (hctr : st.counters counterA = some ctr)
    (hfv : findVaultPDA signer = some (vaultA, vb))
    (hfc : findCounterPDA signer = some (counterA, cb))
    (hcp : createProgramAddress [vaultSeed, signer, [vb]] programID = some vaultA) :
    withdraw st signer vaultA counterA true amount =
      match transfer st vaultA signer amount with
      | .error e => .error e
      | .ok st2 =>
        if ctr.total_withdrawals + 1 < u64Size then
          .ok { st2 with
                counters := setCtr st2.counters counterA
                  (some ⟨ctr.total_deposits, ctr.total_withdrawals + 1⟩) }
        else .error .ArithmeticOverflow := by
  unfold withdraw
  simp [hctr, hfv, hfc, hcp]

/-- A withdrawal succeeds whenever the counter record exists, the supplied
addresses are the derived PDAs, the vault covers the amount, and neither the
signer credit nor the counter increment overflows. -/
theorem withdraw_some_ok (st : Chain) (signer vaultA counterA : Addr)
    (amount vb cb : Nat) (ctr : UserInteractions)
    (hctr : st.counters counterA = some ctr)
    (hfv : findVaultPDA signer = some (vaultA, vb))
    (hfc : findCounterPDA signer = some (counterA, cb))
    (hbal : amount ≤ st.lamports vaultA)
    (hov : st.lamports signer + amount < u64Size)
    (hguard : ctr.total_withdrawals + 1 < u64Size)
    (hvs : vaultA ≠ signer) :
    ∃ s, withdraw st signer vaultA counterA true amount = .ok s := by
  have hcp := findProgramAddress_elim hfv
  simp only [List.cons_append, List.nil_append] at hcp
  have h1 : ¬ st.lamports vaultA < amount := by omega
  have h2 : setBal st.lamports vaultA (st.lamports vaultA - amount) signer + amount
      < u64Size := by
    simp only [setBal, if_neg (Ne.symm hvs)]
    omega
  have htr := transfer_ok_intro st vaultA signer amount h1 h2
  rw [withdraw_eval st signer vaultA counterA amount vb cb ctr hctr hfv hfc hcp, htr]
  simp only [hguard, if_true]
  exact ⟨_, rfl⟩


/-! ### Shared concrete facts about the sample scenario

Each of these evaluates the embedded code once; the witness theorems below
reuse them instead of re-running the computation. -/

theorem fv1_lit : findVaultPDA o1 =
    some ([118, 166, 36, 207, 242, 168, 67, 10, 50, 75, 94, 26, 1, 121, 41, 181,
           231, 57, 243, 54, 172, 235, 175, 139, 184, 55, 150, 18, 101, 118, 191, 103],
          252) := by rfl

theorem fc1_lit : findCounterPDA o1 =
    some ([76, 127, 203, 27, 116, 225, 231, 96, 245, 14, 155, 203, 40, 91, 82, 32,
           248, 46, 60, 33, 216, 237, 51, 77, 93, 234, 117, 22, 194, 137, 35, 79],
          255) := by rfl

theorem fv2_lit : findVaultPDA o2 =
    some ([246, 136, 171, 232, 211, 73, 74, 141, 56, 200, 137, 212, 94, 155, 76, 128,
           49, 173, 229, 78, 107, 150, 160, 15, 29, 166, 245, 103, 35, 181, 98, 26],
          255) := by rfl

theorem fc2_lit : findCounterPDA o2 =
    some ([115, 139, 189, 223, 12, 54, 205, 61, 20, 33, 98, 61, 130, 58, 141, 246,
           100, 45, 158, 147, 232, 19, 162, 65, 62, 233, 155, 170, 36, 95, 126, 171],
          255) := by rfl

theorem v1_bytes : v1 =
    [118, 166, 36, 207, 242, 168, 67, 10, 50, 75, 94, 26, 1, 121, 41, 181,
     231, 57, 243, 54, 172, 235, 175, 139, 184, 55, 150, 18, 101, 118, 191, 103] := by
  unfold v1 vaultAddrOf
  rw [fv1_lit]
  rfl

theorem c1_bytes : c1 =
    [76, 127, 203, 27, 116, 225, 231, 96, 245, 14, 155, 203, 40, 91, 82, 32,
     248, 46, 60, 33, 216, 237, 51, 77, 93, 234, 117, 22, 194, 137, 35, 79] := by
  unfold c1 counterAddrOf
  rw [fc1_lit]
  rfl

theorem v2_bytes : v2 =
    [246, 136, 171, 232, 211, 73, 74, 141, 56, 200, 137, 212, 94, 155, 76, 128,
     49, 173, 229, 78, 107, 150, 160, 15, 29, 166, 245, 103, 35, 181, 98, 26] := by
  unfold v2 vaultAddrOf
  rw [fv2_lit]
  rfl

theorem c2_bytes : c2 =
    [115, 139, 189, 223, 12, 54, 205, 61, 20, 33, 98, 61, 130, 58, 141, 246,
     100, 45, 158, 147, 232, 19, 162, 65, 62, 233, 155, 170, 36, 95, 126, 171] := by
  unfold c2 counterAddrOf
  rw [fc2_lit]
  rfl

theorem fv1_eq : findVaultPDA o1 = some (v1, 252) := by rw [fv1_lit, v1_bytes]

theorem fc1_eq : findCounterPDA o1 = some (c1, 255) := by rw [fc1_lit, c1_bytes]

theorem v1_ne_o1 : v1 ≠ o1 := by rw [v1_bytes]; decide

theorem v1_ne_o2 : v1 ≠ o2 := by rw [v1_bytes]; decide

theorem v1_ne_c1 : v1 ≠ c1 := by rw [v1_bytes, c1_bytes]; decide

theorem c1_ne_o1 : c1 ≠ o1 := by rw [c1_bytes]; decide

theorem c1_ne_o2 : c1 ≠ o2 := by rw [c1_bytes]; decide

theorem badA_ne_v1 : badA ≠ v1 := by rw [v1_bytes]; decide

theorem badA_ne_c1 : badA ≠ c1 := by rw [c1_bytes]; decide

theorem badC_ne_c1 : badC ≠ c1 := by rw [c1_bytes]; decide

theorem owners_distinct : v1 ≠ o2 ∧ v1 ≠ v2 ∧ v1 ≠ c2 ∧ c1 ≠ c2 := by
  rw [v1_bytes, v2_bytes, c1_bytes, c2_bytes]
  exact ⟨by decide, by decide, by decide, by decide⟩

theorem st0_o1_bal : st0.lamports o1 = 5000000000 := by simp [st0]

theorem st0_v1_bal : st0.lamports v1 = 0 := by simp [st0, v1_ne_o1, v1_ne_o2]

theorem st0_c1_bal : st0.lamports c1 = 0 := by simp [st0, c1_ne_o1, c1_ne_o2]

theorem st1_vault_bal : st1.lamports v1 = 1000000000 := by simp [st1]

theorem st1_signer_bal : st1.lamports o1 = 3998942080 := by
  simp [st1, Ne.symm v1_ne_o1, Ne.symm c1_ne_o1]

theorem st1_ctr : st1.counters c1 = some ⟨1, 0⟩ := by simp [st1]

theorem stW_ctr : stW.counters badC = some ⟨3, 4⟩ := by simp [stW, setCtr]

/-- The sample owner's first deposit goes through. -/
theorem dep1_ex : ∃ s, deposit st0 o1 v1 c1 true 1000000000 = .ok s := by
  apply deposit_create_ok st0 o1 v1 c1 1000000000 252 255 fv1_eq fc1_eq rfl
  · rw [st0_o1_bal]; norm_num [counterRent]
  · rw [st0_c1_bal]; norm_num [counterRent, u64Size]
  · rw [st0_v1_bal]; norm_num [u64Size]
  · exact v1_ne_o1
  · exact v1_ne_c1
  · exact c1_ne_o1

/-- A 0.4 SOL withdrawal from the funded sample state goes through. -/
theorem wd1_ex : ∃ s, withdraw st1 o1 v1 c1 true 400000000 = .ok s := by
  apply withdraw_some_ok st1 o1 v1 c1 400000000 252 255 ⟨1, 0⟩ st1_ctr fv1_eq fc1_eq
  · rw [st1_vault_bal]; norm_num
  · rw [st1_signer_bal]; norm_num [u64Size]
  · norm_num [u64Size]
  · exact v1_ne_o1

/-! ## Claims -/

/-- C1: for every owner and every amount, a successful `Deposit` increases
the vault account's balance by exactly `amount` and `totalDeposits` by
exactly 1 (a counter created by this first deposit starts from zero), and a
failed `Deposit` leaves the observable chain state fully unchanged
(all-or-nothing; the distinctness hypotheses rule out the vault address
coinciding with the signer's key or the counter address, which derivation
guarantees for every real owner). -/
theorem C1_deposit_effects (st : Chain) (signer vaultA counterA : Addr)
    (signed : Bool) (amount : Nat) :
    (∀ st', deposit st signer vaultA counterA signed amount = .ok st' →
      vaultA ≠ signer → vaultA ≠ counterA →
      st'.lamports vaultA = st.lamports vaultA + amount ∧
      tdOf (st'.counters counterA) = tdOf (st.counters counterA) + 1) ∧
    (∀ e, deposit st signer vaultA counterA signed amount = .error e →
      stepOp st (.dep signer vaultA counterA signed amount) = st) := by
  constructor
  · intro st' h hvs hvc
    unfold deposit at h
    split at h
    · exact absurd h (by simp)
    · split at h
      · exact absurd h (by simp)
      · split at h
        · exact absurd h (by simp)
        · split at h
          · exact absurd h (by simp)
          · split at h
            · exact absurd h (by simp)
            · split at h
              · -- counter already exists
                rename_i c hc
                unfold depositBody at h
                split at h
                · exact absurd h (by simp)
                · rename_i st2 htr
                  obtain ⟨-, hctr2, hlam2⟩ := transfer_ok_elim htr
                  split at h
                  · cases h
                    refine ⟨?_, ?_⟩
                    · simp [hlam2, setBal, hvs]
                    · simp [setCtr, hctr2, hc, tdOf]
                  · exact absurd h (by simp)
              · -- counter created by this deposit
                rename_i hc
                split at h
                · exact absurd h (by simp)
                · rename_i str hrent
                  obtain ⟨-, hctrr, hlamr⟩ := transfer_ok_elim hrent
                  unfold depositBody at h
                  split at h
                  · exact absurd h (by simp)
                  · rename_i st2 htr
                    obtain ⟨-, hctr2, hlam2⟩ := transfer_ok_elim htr
                    split at h
                    · cases h
                      refine ⟨?_, ?_⟩
                      · simp [hlam2, hlamr, setBal, hvs, hvc]
                      · simp [setCtr, hctr2, hc, tdOf]
                    · exact absurd h (by simp)
  · intro e h
    simp only [stepOp, runOp, h]

/-- C1 witness: in the sample state, the sample owner's 1 SOL deposit lands
exactly on the vault and bumps the counter from 0 to 1, and a deposit aimed
at a mismatched vault address changes nothing. -/
theorem C1_deposit_effects_witness :
    (stepOp st0 (.dep o1 v1 c1 true 1000000000)).lamports v1 =
      st0.lamports v1 + 1000000000 ∧
    tdOf ((stepOp st0 (.dep o1 v1 c1 true 1000000000)).counters c1) =
      tdOf (st0.counters c1) + 1 ∧
    stepOp st0 (.dep o1 c1 c1 true 5) = st0 := by
  obtain ⟨s, hs⟩ := dep1_ex
  have hrun : runOp st0 (.dep o1 v1 c1 true 1000000000) = .ok s := hs
  have hstep := stepOp_ok hrun
  have H := C1_deposit_effects st0 o1 v1 c1 true 1000000000
  have hc := H.1 s hs v1_ne_o1 v1_ne_c1
  have H' := C1_deposit_effects st0 o1 c1 c1 true 5
  have herr : deposit st0 o1 c1 c1 true 5 = .error .AddressMismatch := by
    unfold deposit
    simp [fv1_eq, Ne.symm v1_ne_c1]
  rw [hstep]
  exact ⟨hc.1, hc.2, H'.2 _ herr⟩

/-- C2: when a `Withdraw` succeeds, the vault account's balance decreases by
exactly `amount`, the signer's spendable balance increases by exactly
`amount`, and `totalWithdrawals` increases by exactly 1 (success itself
entails that the counter existed and the amount did not exceed the vault
balance; the distinctness hypothesis rules out the vault address coinciding
with the signer's key, which derivation guarantees for real signers). -/
theorem C2_withdraw_effects (st : Chain) (signer vaultA counterA : Addr)
    (signed : Bool) (amount : Nat) (st' : Chain)
    (h : withdraw st signer vaultA counterA signed amount = .ok st')
    (hvs : vaultA ≠ signer) :
    st.lamports vaultA = st'.lamports vaultA + amount ∧
    st'.lamports signer = st.lamports signer + amount ∧
    twOf (st'.counters counterA) = twOf (st.counters counterA) + 1 := by
  obtain ⟨-, -, -, ⟨ctr, hc, -, hc'⟩, -, -, hlam, -⟩ := withdraw_ok_elim h
  obtain ⟨h1, h2⟩ := hlam hvs
  exact ⟨h1, h2, by rw [hc, hc']; simp [twOf]⟩

/-- C2 witness: withdrawing 0.4 SOL from the sample vault moves exactly that
amount from the vault to the signer and counts one withdrawal. -/
theorem C2_withdraw_effects_witness :
    st1.lamports v1 = (stepOp st1 (.wd o1 v1 c1 true 400000000)).lamports v1 + 400000000 ∧
    (stepOp st1 (.wd o1 v1 c1 true 400000000)).lamports o1 =
      st1.lamports o1 + 400000000 ∧
    twOf ((stepOp st1 (.wd o1 v1 c1 true 400000000)).counters c1) =
      twOf (st1.counters c1) + 1 := by
  obtain ⟨s, hs⟩ := wd1_ex
  have hrun : runOp st1 (.wd o1 v1 c1 true 400000000) = .ok s := hs
  rw [stepOp_ok hrun]
  exact C2_withdraw_effects st1 o1 v1 c1 true 400000000 s hs v1_ne_o1

/-- C3: with the counter existing and the correct derived addresses supplied,
a `Withdraw` of more than the vault balance fails with `InsufficientFunds`
and changes nothing, while a `Withdraw` of exactly the full balance succeeds,
leaving the vault account at balance zero (not destroyed — the counter
record persists and gains the withdrawal). -/
theorem C3_withdraw_balance_edge (st : Chain) (signer vaultA counterA : Addr)
    (amount : Nat) (ctr : UserInteractions) (vb cb : Nat)
    (hctr : st.counters counterA = some ctr)
    (hfv : findVaultPDA signer = some (vaultA, vb))
    (hfc : findCounterPDA signer = some (counterA, cb)) :
    (st.lamports vaultA < amount →
      withdraw st signer vaultA counterA true amount = .error .InsufficientFunds ∧
      stepOp st (.wd signer vaultA counterA true amount) = st) ∧
    (amount = st.lamports vaultA → vaultA ≠ signer →
      st.lamports signer + amount < u64Size →
      ctr.total_withdrawals + 1 < u64Size →
      withdraw st signer vaultA counterA true amount =
        .ok { st with
              lamports := setBal (setBal st.lamports vaultA (st.lamports vaultA - amount))
                signer (setBal st.lamports vaultA (st.lamports vaultA - amount) signer + amount),
              counters := setCtr st.counters counterA
                (some ⟨ctr.total_deposits, ctr.total_withdrawals + 1⟩) } ∧
      setBal (setBal st.lamports vaultA (st.lamports vaultA - amount)) signer
        (setBal st.lamports vaultA (st.lamports vaultA - amount) signer + amount) vaultA = 0) := by
  have hcp := findProgramAddress_elim hfv
  simp only [List.cons_append, List.nil_append] at hcp
  constructor
  · intro hlt
    have herr : withdraw st signer vaultA counterA true amount = .error .InsufficientFunds := by
      unfold withdraw transfer
      simp [hctr, hfv, hfc, hcp, hlt]
    exact ⟨herr, by simp [stepOp, runOp, herr]⟩
  · intro hamt hvs hsov hgrd
    have h1 : ¬ st.lamports vaultA < amount := by omega
    have h2 : setBal st.lamports vaultA (st.lamports vaultA - amount) signer + amount
        < u64Size := by
      simp only [setBal, if_neg (Ne.symm hvs)]; exact hsov
    have htr := transfer_ok_intro st vaultA signer amount h1 h2
    constructor
    · unfold withdraw
      simp [hctr, hfv, hfc, hcp, htr, hgrd]
    · simp [setBal, hvs, Ne.symm hvs]; omega

/-- C3 witness: in the funded sample state (vault = 1 SOL), withdrawing
1.5 SOL fails with `InsufficientFunds` and changes nothing, and withdrawing
the full 1 SOL succeeds and leaves the vault at zero with counter (1, 1). -/
theorem C3_withdraw_balance_edge_witness :
    (withdraw st1 o1 v1 c1 true 1500000000 = .error .InsufficientFunds ∧
      stepOp st1 (.wd o1 v1 c1 true 1500000000) = st1) ∧
    ((stepOp st1 (.wd o1 v1 c1 true 1000000000)).lamports v1 = 0 ∧
      (stepOp st1 (.wd o1 v1 c1 true 1000000000)).counters c1 = some ⟨1, 1⟩) := by
  have H := C3_withdraw_balance_edge st1 o1 v1 c1 1500000000 ⟨1, 0⟩ 252 255
    st1_ctr fv1_eq fc1_eq
  have H2 := C3_withdraw_balance_edge st1 o1 v1 c1 1000000000 ⟨1, 0⟩ 252 255
    st1_ctr fv1_eq fc1_eq
  have hlt : st1.lamports v1 < 1500000000 := by rw [st1_vault_bal]; norm_num
  have hov : st1.lamports o1 + 1000000000 < u64Size := by
    rw [st1_signer_bal]; norm_num [u64Size]
  have hfull := H2.2 st1_vault_bal.symm v1_ne_o1 hov (by norm_num [u64Size])
  have hrun : runOp st1 (.wd o1 v1 c1 true 1000000000) = _ := hfull.1
  refine ⟨H.1 hlt, ?_, ?_⟩
  · rw [stepOp_ok hrun]
    exact hfull.2
  · rw [stepOp_ok hrun]
    simp [setCtr]

/-- C4: a `Withdraw` against a counter account that does not exist (no prior
deposit for this owner) fails with `CounterNotFound` — regardless of the
amount or even of the signature — and the failed transaction creates no
account and changes no state. -/
theorem C4_withdraw_no_counter (st : Chain) (signer vaultA counterA : Addr)
    (signed : Bool) (amount : Nat)
    (hnone : st.counters counterA = none) :
    withdraw st signer vaultA counterA signed amount = .error .CounterNotFound ∧
    stepOp st (.wd signer vaultA counterA signed amount) = st := by
  have herr : withdraw st signer vaultA counterA signed amount = .error .CounterNotFound := by
    unfold withdraw; rw [hnone]
  exact ⟨herr, by simp [stepOp, runOp, herr]⟩

/-- C4 witness: the sample owner, before any deposit, cannot withdraw — the
call fails with `CounterNotFound` and the state is untouched. -/
theorem C4_withdraw_no_counter_witness :
    withdraw st0 o1 v1 c1 true 500 = .error .CounterNotFound ∧
    stepOp st0 (.wd o1 v1 c1 true 500) = st0 :=
  C4_withdraw_no_counter st0 o1 v1 c1 true 500 rfl

/-- C5: on either instruction, a supplied vault or counter address that
differs from the address recomputed by derivation from the signer's identity
is rejected with `AddressMismatch` and no state changes; and a `Withdraw`
only ever succeeds on the vault address that re-derives from the signer's
identity and the recorded bump. -/
theorem C5_address_mismatch_security (st : Chain) (signer : Addr) (amount : Nat) :
    (∀ vaultA counterA vp vb,
      findVaultPDA signer = some (vp, vb) → vaultA ≠ vp →
      deposit st signer vaultA counterA true amount = .error .AddressMismatch ∧
      stepOp st (.dep signer vaultA counterA true amount) = st) ∧
    (∀ vaultA counterA vb cp cb,
      findVaultPDA signer = some (vaultA, vb) →
      findCounterPDA signer = some (cp, cb) → counterA ≠ cp →
      deposit st signer vaultA counterA true amount = .error .AddressMismatch ∧
      stepOp st (.dep signer vaultA counterA true amount) = st) ∧
    (∀ vaultA counterA ctr vp vb,
      st.counters counterA = some ctr →
      findVaultPDA signer = some (vp, vb) → vaultA ≠ vp →
      withdraw st signer vaultA counterA true amount = .error .AddressMismatch ∧
      stepOp st (.wd signer vaultA counterA true amount) = st) ∧
    (∀ vaultA counterA ctr vb cp cb,
      st.counters counterA = some ctr →
      findVaultPDA signer = some (vaultA, vb) →
      findCounterPDA signer = some (cp, cb) → counterA ≠ cp →
      withdraw st signer vaultA counterA true amount = .error .AddressMismatch ∧
      stepOp st (.wd signer vaultA counterA true amount) = st) ∧
    (∀ vaultA counterA signed st',
      withdraw st signer vaultA counterA signed amount = .ok st' →
      ∃ vb, findVaultPDA signer = some (vaultA, vb) ∧
        createProgramAddress [vaultSeed, signer, [vb]] programID = some vaultA) := by
  refine ⟨?_, ?_, ?_, ?_, ?_⟩
  · intro vaultA counterA vp vb hfv hvne
    have herr : deposit st signer vaultA counterA true amount = .error .AddressMismatch := by
      unfold deposit
      simp [hfv, hvne]
    exact ⟨herr, by simp [stepOp, runOp, herr]⟩
  · intro vaultA counterA vb cp cb hfv hfc hcne
    have herr : deposit st signer vaultA counterA true amount = .error .AddressMismatch := by
      unfold deposit
      simp [hfv, hfc, hcne]
    exact ⟨herr, by simp [stepOp, runOp, herr]⟩
  · intro vaultA counterA ctr vp vb hctr hfv hvne
    have herr : withdraw st signer vaultA counterA true amount = .error .AddressMismatch := by
      unfold withdraw
      simp [hctr, hfv, hvne]
    exact ⟨herr, by simp [stepOp, runOp, herr]⟩
  · intro vaultA counterA ctr vb cp cb hctr hfv hfc hcne
    have herr : withdraw st signer vaultA counterA true amount = .error .AddressMismatch := by
      unfold withdraw
      simp [hctr, hfv, hfc, hcne]
    exact ⟨herr, by simp [stepOp, runOp, herr]⟩
  · intro vaultA counterA signed st' h
    obtain ⟨-, hsec, -⟩ := withdraw_ok_elim h
    exact hsec

/-- C5 witness: mismatched vault or counter addresses are rejected with
`AddressMismatch` on both instructions with no state change, and the sample
owner's successful withdrawal ran against the vault address that re-derives
from `[b"vault", owner, bump 252]`. -/
theorem C5_address_mismatch_security_witness :
    (deposit st0 o1 badA c1 true 5 = .error .AddressMismatch ∧
      stepOp st0 (.dep o1 badA c1 true 5) = st0) ∧
    (deposit st0 o1 v1 badA true 5 = .error .AddressMismatch ∧
      stepOp st0 (.dep o1 v1 badA true 5) = st0) ∧
    (withdraw st1 o1 badA c1 true 5 = .error .AddressMismatch ∧
      stepOp st1 (.wd o1 badA c1 true 5) = st1) ∧
    (withdraw stW o1 v1 badC true 5 = .error .AddressMismatch ∧
      stepOp stW (.wd o1 v1 badC true 5) = stW) ∧
    createProgramAddress [vaultSeed, o1, [252]] programID = some v1 := by
  have H := C5_address_mismatch_security st0 o1 5
  have H1 := C5_address_mismatch_security st1 o1 5
  have HW := C5_address_mismatch_security stW o1 5
  have H4 := C5_address_mismatch_security st1 o1 400000000
  refine ⟨?_, ?_, ?_, ?_, ?_⟩
  · exact H.1 badA c1 v1 252 fv1_eq badA_ne_v1
  · exact H.2.1 v1 badA 252 c1 255 fv1_eq fc1_eq badA_ne_c1
  · exact H1.2.2.1 badA c1 ⟨1, 0⟩ v1 252 st1_ctr fv1_eq badA_ne_v1
  · exact HW.2.2.2.1 v1 badC ⟨3, 4⟩ 252 c1 255 stW_ctr fv1_eq fc1_eq badC_ne_c1
  · obtain ⟨s, hs⟩ := wd1_ex
    obtain ⟨vb, hfv, hcp⟩ := H4.2.2.2.2 v1 c1 true s hs
    rw [fv1_eq] at hfv
    have hvb : vb = 252 := by
      have := (Option.some.injEq _ _).mp hfv.symm
      exact (Prod.mk.injEq _ _ _ _).mp this |>.2
    rw [hvb] at hcp
    exact hcp

/-- C6: address derivation is a pure, deterministic function of the
namespace seed, the owner identity and the fixed program id: any two
computations of the derivation for the same inputs return the identical
address and the identical bump. -/
theorem C6_derivation_deterministic (seed : List Nat) (owner : Addr)
    (r1 r2 : Option (Addr × Nat))
    (h1 : r1 = findProgramAddress [seed, owner] programID)
    (h2 : r2 = findProgramAddress [seed, owner] programID) :
    r1 = r2 ∧ r1.map Prod.fst = r2.map Prod.fst ∧ r1.map Prod.snd = r2.map Prod.snd := by
  subst h1; subst h2
  exact ⟨rfl, rfl, rfl⟩

/-- C6 witness: two independent derivations of the sample owner's vault and
counter PDAs agree (address and bump). -/
theorem C6_derivation_deterministic_witness :
    findVaultPDA o1 = findProgramAddress [vaultSeed, o1] programID ∧
    findCounterPDA o1 = findProgramAddress [counterSeed, o1] programID := by
  refine ⟨?_, ?_⟩
  · exact (C6_derivation_deterministic vaultSeed o1 (findVaultPDA o1)
      (findProgramAddress [vaultSeed, o1] programID) rfl rfl).1
  · exact (C6_derivation_deterministic counterSeed o1 (findCounterPDA o1)
      (findProgramAddress [counterSeed, o1] programID) rfl rfl).1

/-- C8: the vault balance changes only by `+amount` on a successful deposit
and by `-amount` on a successful withdrawal (which never exceeds the prior
balance, so the subtraction never underflows); failed transactions change
nothing; and over every operation sequence the balance, viewed as an
integer, never goes negative. -/
theorem C8_balance_evolution (st : Chain) (signer vaultA counterA : Addr)
    (signed : Bool) (amount : Nat) :
    (∀ st', deposit st signer vaultA counterA signed amount = .ok st' →
      vaultA ≠ signer → vaultA ≠ counterA →
      st'.lamports vaultA = st.lamports vaultA + amount) ∧
    (∀ st', withdraw st signer vaultA counterA signed amount = .ok st' →
      amount ≤ st.lamports vaultA ∧
      (vaultA ≠ signer → st.lamports vaultA = st'.lamports vaultA + amount)) ∧
    (∀ op e, runOp st op = .error e → stepOp st op = st) ∧
    (∀ ops a, (0 : Int) ≤ ((runOps st ops).lamports a : Int)) := by
  refine ⟨?_, ?_, ?_, ?_⟩
  · intro st' h h1 h2
    obtain ⟨-, -, -, -, -, -, hlam, -⟩ := deposit_ok_elim h
    exact hlam h1 h2
  · intro st' h
    obtain ⟨-, -, -, -, -, hle, hlam, -⟩ := withdraw_ok_elim h
    exact ⟨hle, fun hvs => (hlam hvs).1⟩
  · intro op e h
    simp [stepOp, h]
  · intro ops a
    exact Int.natCast_nonneg _

/-- C8 witness: the sample deposit adds exactly its amount to the vault, the
sample withdrawal never overdraws and subtracts exactly its amount, a failed
call leaves the state intact, and the balance stays non-negative along a
concrete deposit-withdraw sequence. -/
theorem C8_balance_evolution_witness :
    (stepOp st0 (.dep o1 v1 c1 true 1000000000)).lamports v1 =
      st0.lamports v1 + 1000000000 ∧
    (400000000 ≤ st1.lamports v1 ∧
      st1.lamports v1 = (stepOp st1 (.wd o1 v1 c1 true 400000000)).lamports v1 + 400000000) ∧
    stepOp st0 (.wd o1 v1 c1 true 7) = st0 ∧
    (0 : Int) ≤ ((runOps st0 [.dep o1 v1 c1 true 1000000000, .wd o1 v1 c1 true 400000000]).lamports v1 : Int) := by
  obtain ⟨s, hs⟩ := dep1_ex
  obtain ⟨t, ht⟩ := wd1_ex
  have hrun : runOp st0 (.dep o1 v1 c1 true 1000000000) = .ok s := hs
  have hrunw : runOp st1 (.wd o1 v1 c1 true 400000000) = .ok t := ht
  have hstep := stepOp_ok hrun
  have hstepw := stepOp_ok hrunw
  have H0 := C8_balance_evolution st0 o1 v1 c1 true 1000000000
  have H1 := C8_balance_evolution st1 o1 v1 c1 true 400000000
  have herr : runOp st0 (.wd o1 v1 c1 true 7) = .error .CounterNotFound := by
    unfold runOp withdraw
    rfl
  refine ⟨?_, ?_, ?_, ?_⟩
  · rw [hstep]
    exact H0.1 s hs v1_ne_o1 v1_ne_c1
  · have h := H1.2.1 t ht
    exact ⟨h.1, by rw [hstepw]; exact h.2 v1_ne_o1⟩
  · exact H0.2.2.1 _ _ herr
  · exact H0.2.2.2 [.dep o1 v1 c1 true 1000000000, .wd o1 v1 c1 true 400000000] v1

/-- C9: the interaction counter is created holding zeroes by the first
deposit and observed as (1, 0) after it; each successful deposit increments
`totalDeposits` by exactly 1 and leaves `totalWithdrawals` alone, each
successful withdrawal the converse, in both cases regardless of the amount;
the `u64` bounds on both fields are preserved by every transaction; and both
fields are monotonically non-decreasing across every transaction sequence. -/
theorem C9_counter_invariants (st : Chain) (signer vaultA counterA : Addr)
    (signed : Bool) (amount : Nat) :
    (∀ st', st.counters counterA = none →
      deposit st signer vaultA counterA signed amount = .ok st' →
      st'.counters counterA = some ⟨1, 0⟩) ∧
    (∀ st', deposit st signer vaultA counterA signed amount = .ok st' →
      tdOf (st'.counters counterA) = tdOf (st.counters counterA) + 1 ∧
      twOf (st'.counters counterA) = twOf (st.counters counterA)) ∧
    (∀ st', withdraw st signer vaultA counterA signed amount = .ok st' →
      twOf (st'.counters counterA) = twOf (st.counters counterA) + 1 ∧
      tdOf (st'.counters counterA) = tdOf (st.counters counterA)) ∧
    (CtrWF st → ∀ op, CtrWF (stepOp st op)) ∧
    (∀ ops a, tdOf (st.counters a) ≤ tdOf ((runOps st ops).counters a) ∧
      twOf (st.counters a) ≤ twOf ((runOps st ops).counters a)) := by
  refine ⟨?_, ?_, ?_, ?_, ?_⟩
  · intro st' hnone h
    obtain ⟨-, -, -, -, hctr, -, -, -⟩ := deposit_ok_elim h
    rw [hctr, hnone]
    simp [tdOf, twOf]
  · intro st' h
    obtain ⟨-, -, -, -, hctr, -, -, -⟩ := deposit_ok_elim h
    rw [hctr]
    simp [tdOf, twOf]
  · intro st' h
    obtain ⟨-, -, -, ⟨ctr, hc, -, hc'⟩, -, -, -, -⟩ := withdraw_ok_elim h
    rw [hc, hc']
    simp [tdOf, twOf]
  · intro hwf op
    exact ctrWF_step st hwf op
  · intro ops a
    exact ctr_runOps_mono ops st a

/-- C9 witness: the sample owner's first deposit creates the counter as
(1, 0); the following withdrawal moves it to (1, 1) whatever the amounts;
well-formedness is preserved from the empty start state; and both fields
only grow along a concrete sequence. -/
theorem C9_counter_invariants_witness :
    (stepOp st0 (.dep o1 v1 c1 true 1000000000)).counters c1 = some ⟨1, 0⟩ ∧
    (twOf ((stepOp st1 (.wd o1 v1 c1 true 400000000)).counters c1) =
      twOf (st1.counters c1) + 1 ∧
     tdOf ((stepOp st1 (.wd o1 v1 c1 true 400000000)).counters c1) =
      tdOf (st1.counters c1)) ∧
    CtrWF (stepOp st0 (.dep o1 v1 c1 true 1000000000)) ∧
    (tdOf (st0.counters c1) ≤
      tdOf ((runOps st0 [.dep o1 v1 c1 true 1000000000, .wd o1 v1 c1 true 400000000]).counters c1) ∧
     twOf (st0.counters c1) ≤
      twOf ((runOps st0 [.dep o1 v1 c1 true 1000000000, .wd o1 v1 c1 true 400000000]).counters c1)) := by
  obtain ⟨s, hs⟩ := dep1_ex
  obtain ⟨t, ht⟩ := wd1_ex
  have hrun : runOp st0 (.dep o1 v1 c1 true 1000000000) = .ok s := hs
  have hrunw : runOp st1 (.wd o1 v1 c1 true 400000000) = .ok t := ht
  have hstep := stepOp_ok hrun
  have hstepw := stepOp_ok hrunw
  have H0 := C9_counter_invariants st0 o1 v1 c1 true 1000000000
  have H1 := C9_counter_invariants st1 o1 v1 c1 true 400000000
  have hwf0 : CtrWF st0 := by
    intro a c hac
    simp [st0] at hac
  refine ⟨by rw [hstep]; exact H0.1 s rfl hs,
    by rw [hstepw]; exact H1.2.2.1 t ht, ?_, ?_⟩
  · exact H0.2.2.2.1 hwf0 (.dep o1 v1 c1 true 1000000000)
  · exact H0.2.2.2.2 [.dep o1 v1 c1 true 1000000000, .wd o1 v1 c1 true 400000000] c1

/-- C10: a successful deposit leaves the owner's `totalWithdrawals`
unchanged and a successful withdrawal leaves `totalDeposits` unchanged;
either instruction touches no lamport balance besides the signer, vault and
counter addresses of the call, and no counter record besides the call's
counter address — in particular any other owner whose derived addresses are
distinct (as derivation guarantees) keeps their vault balance and counter
record. -/
theorem C10_frame (st : Chain) (signer vaultA counterA : Addr)
    (signed : Bool) (amount : Nat) :
    (∀ st', deposit st signer vaultA counterA signed amount = .ok st' →
      twOf (st'.counters counterA) = twOf (st.counters counterA)) ∧
    (∀ st', withdraw st signer vaultA counterA signed amount = .ok st' →
      tdOf (st'.counters counterA) = tdOf (st.counters counterA)) ∧
    (∀ a, a ≠ signer → a ≠ vaultA → a ≠ counterA →
      (stepOp st (.dep signer vaultA counterA signed amount)).lamports a = st.lamports a ∧
      (stepOp st (.wd signer vaultA counterA signed amount)).lamports a = st.lamports a) ∧
    (∀ a, a ≠ counterA →
      (stepOp st (.dep signer vaultA counterA signed amount)).counters a = st.counters a ∧
      (stepOp st (.wd signer vaultA counterA signed amount)).counters a = st.counters a) ∧
    (∀ other, vaultAddrOf other ≠ signer → vaultAddrOf other ≠ vaultA →
      vaultAddrOf other ≠ counterA → counterAddrOf other ≠ counterA →
      ((stepOp st (.dep signer vaultA counterA signed amount)).lamports (vaultAddrOf other) =
        st.lamports (vaultAddrOf other) ∧
       (stepOp st (.dep signer vaultA counterA signed amount)).counters (counterAddrOf other) =
        st.counters (counterAddrOf other)) ∧
      ((stepOp st (.wd signer vaultA counterA signed amount)).lamports (vaultAddrOf other) =
        st.lamports (vaultAddrOf other) ∧
       (stepOp st (.wd signer vaultA counterA signed amount)).counters (counterAddrOf other) =
        st.counters (counterAddrOf other))) := by
  have hdepL : ∀ a, a ≠ signer → a ≠ vaultA → a ≠ counterA →
      (stepOp st (.dep signer vaultA counterA signed amount)).lamports a = st.lamports a := by
    intro a h1 h2 h3
    cases hres : deposit st signer vaultA counterA signed amount with
    | error e => simp [stepOp, runOp, hres]
    | ok st' =>
      have hstep : stepOp st (.dep signer vaultA counterA signed amount) = st' := by
        simp [stepOp, runOp, hres]
      rw [hstep]
      obtain ⟨-, -, -, -, -, -, -, hframe⟩ := deposit_ok_elim hres
      exact hframe a h1 h2 h3
  have hdepC : ∀ a, a ≠ counterA →
      (stepOp st (.dep signer vaultA counterA signed amount)).counters a = st.counters a := by
    intro a h1
    cases hres : deposit st signer vaultA counterA signed amount with
    | error e => simp [stepOp, runOp, hres]
    | ok st' =>
      have hstep : stepOp st (.dep signer vaultA counterA signed amount) = st' := by
        simp [stepOp, runOp, hres]
      rw [hstep]
      obtain ⟨-, -, -, -, -, hframe, -, -⟩ := deposit_ok_elim hres
      exact hframe a h1
  have hwdL : ∀ a, a ≠ signer → a ≠ vaultA →
      (stepOp st (.wd signer vaultA counterA signed amount)).lamports a = st.lamports a := by
    intro a h1 h2
    cases hres : withdraw st signer vaultA counterA signed amount with
    | error e => simp [stepOp, runOp, hres]
    | ok st' =>
      have hstep : stepOp st (.wd signer vaultA counterA signed amount) = st' := by
        simp [stepOp, runOp, hres]
      rw [hstep]
      obtain ⟨-, -, -, -, -, -, -, hframe⟩ := withdraw_ok_elim hres
      exact hframe a h1 h2
  have hwdC : ∀ a, a ≠ counterA →
      (stepOp st (.wd signer vaultA counterA signed amount)).counters a = st.counters a := by
    intro a h1
    cases hres : withdraw st signer vaultA counterA signed amount with
    | error e => simp [stepOp, runOp, hres]
    | ok st' =>
      have hstep : stepOp st (.wd signer vaultA counterA signed amount) = st' := by
        simp [stepOp, runOp, hres]
      rw [hstep]
      obtain ⟨-, -, -, -, hframe, -, -, -⟩ := withdraw_ok_elim hres
      exact hframe a h1
  refine ⟨?_, ?_, ?_, ?_, ?_⟩
  · intro st' h
    obtain ⟨-, -, -, -, hctr, -, -, -⟩ := deposit_ok_elim h
    rw [hctr]
    simp [twOf]
  · intro st' h
    obtain ⟨-, -, -, ⟨ctr, hc, -, hc'⟩, -, -, -, -⟩ := withdraw_ok_elim h
    rw [hc, hc']
    simp [tdOf]
  · intro a h1 h2 h3
    exact ⟨hdepL a h1 h2 h3, hwdL a h1 h2⟩
  · intro a h1
    exact ⟨hdepC a h1, hwdC a h1⟩
  · intro other h1 h2 h3 h4
    exact ⟨⟨hdepL _ h1 h2 h3, hdepC _ h4⟩, ⟨hwdL _ h1 h2, hwdC _ h4⟩⟩

/-- C10 witness: the second owner's deposit leaves the first owner's vault
balance and counter record untouched, the sample deposit leaves
`totalWithdrawals` at 0 and the sample withdrawal leaves `totalDeposits`
at 1. -/
theorem C10_frame_witness :
    twOf ((stepOp st0 (.dep o1 v1 c1 true 1000000000)).counters c1) =
      twOf (st0.counters c1) ∧
    tdOf ((stepOp st1 (.wd o1 v1 c1 true 400000000)).counters c1) =
      tdOf (st1.counters c1) ∧
    ((stepOp st1 (.dep o2 v2 c2 true 700000000)).lamports v1 = st1.lamports v1 ∧
     (stepOp st1 (.dep o2 v2 c2 true 700000000)).counters c1 = st1.counters c1) := by
  obtain ⟨s, hs⟩ := dep1_ex
  obtain ⟨t, ht⟩ := wd1_ex
  have hrun : runOp st0 (.dep o1 v1 c1 true 1000000000) = .ok s := hs
  have hrunw : runOp st1 (.wd o1 v1 c1 true 400000000) = .ok t := ht
  have hstep := stepOp_ok hrun
  have hstepw := stepOp_ok hrunw
  have H0 := C10_frame st0 o1 v1 c1 true 1000000000
  have H1 := C10_frame st1 o1 v1 c1 true 400000000
  have H2 := C10_frame st1 o2 v2 c2 true 700000000
  obtain ⟨hd1, hd2, hd3, hd4⟩ := owners_distinct
  refine ⟨by rw [hstep]; exact H0.1 s hs, by rw [hstepw]; exact H1.2.1 t ht, ?_⟩
  exact (H2.2.2.2.2 o1 hd1 hd2 hd3 hd4).1

end SolanaVault

